import Mathlib

/-!
Shallow embedding of `src/zenoh-plugin-mqtt/src/mqtt_session_state.rs`.

The file models the per-client bridging core of the zenoh MQTT plugin:
session state construction, the topic-to-subscription mapping with its
allow/deny visibility policy, the two routing entry points, the bounded
outbound channel, and the delivery-task loop.

External collaborators (the topic/key translator, the allow/deny rule
evaluator, the zenoh session primitives, the MQTT sink) live outside the
translated source file; they are modelled abstractly, as function fields of
a `ZenohEnv` record and oracle inputs, so that every theorem quantifies over
their behaviour and only what the translated source decides is fixed.
-/

namespace ZenohMqtt

/-- Zenoh `Locality`: visibility of a subscription origin or a publish
destination. -/
inductive Locality where
  | Any
  | SessionLocal
deriving DecidableEq, Repr

/-- Abstract error value (zenoh `ZError`), identified by its message. -/
structure ZErr where
  msg : String
deriving DecidableEq, Repr

/-- The plugin configuration as seen by `mqtt_session_state.rs`: the optional
scope key prefixed to every key, and the allow/deny rule set.  The rule set is
consumed only through the boolean `is_allowed(topic, config)` helper, so it is
modelled as the boolean function itself. -/
structure Config where
  scope : Option String
  allowRule : String → Bool

/-- External helper `is_allowed(topic, &config)` from `mqtt_helpers`:
consumed by the translated source only through its boolean result. -/
def is_allowed (topic : String) (config : Config) : Bool :=
  config.allowRule topic

/-- Abstract behaviour of the external collaborators: the translator
(`mqtt_topic_to_ke`, `ke_to_mqtt_topic_publish`, `guess_encoding`, the
`try_into` conversion of a topic to a key expression and the `/` join of a
scope with a key) and the zenoh session (`declare_subscriber`, `put`). -/
structure ZenohEnv where
  mqtt_topic_to_ke : String → Option String → Except ZErr String
  ke_to_mqtt_topic_publish : String → Option String → Except ZErr String
  tryIntoKe : String → Except ZErr String
  keJoin : String → String → String
  guess_encoding : List Nat → String
  declare_subscriber : String → Locality → Except ZErr Unit
  put : String → List Nat → String → Locality → Except ZErr Unit

/-- The bounded `async_channel` carrying `(topic, payload)` pairs: capacity,
buffered messages, and whether the channel is closed (receiver dropped). -/
structure Channel where
  cap : Nat
  buf : List (String × List Nat)
  closed : Bool
deriving DecidableEq, Repr

/-- One registered subscription: the key expression it was declared on and
the allowed origin chosen for it. -/
structure SubRecord where
  ke : String
  origin : Locality
deriving DecidableEq, Repr

/-- `MqttSessionState`: client id, the zenoh session handle (abstract id),
configuration, the `subs` registry (`HashMap<String, Subscriber>` modelled as
an association list) and the sending half `tx` of the outbound channel. -/
structure MqttSessionState where
  client_id : String
  zsession : Nat
  config : Config
  subs : List (String × SubRecord)
  tx : Channel

/-- `HashMap::contains_key` on the association list. -/
def containsKey (l : List (String × SubRecord)) (t : String) : Bool :=
  l.any (fun p => p.1 == t)

/-- `HashMap::insert` on the association list: replaces any entry at the
key. -/
def insertKey (l : List (String × SubRecord)) (t : String) (r : SubRecord) :
    List (String × SubRecord) :=
  (t, r) :: l.filter (fun p => p.1 != t)

/-- Number of registry entries stored at topic `t`. -/
def countKey (l : List (String × SubRecord)) (t : String) : Nat :=
  (l.filter (fun p => p.1 == t)).length

/-- Task spawned by `spawn_mqtt_publisher`: bound to the client id and the
MQTT sink (and, implicitly, the receiving half of the session's channel). -/
structure Sink where
  isOpenFlag : Bool
  delivered : List (String × List Nat)
deriving DecidableEq, Repr

/-- A spawned delivery task: the client id and sink it was bound to. -/
structure DeliveryTaskInit where
  client_id : String
  sink : Sink
deriving DecidableEq, Repr

/-- Result of `MqttSessionState::new`: the constructed state together with
the list of delivery tasks spawned as a side effect. -/
structure NewOutcome where
  state : MqttSessionState
  spawned : List DeliveryTaskInit

/-- `MqttSessionState::new` (lines 36..52): allocates the bounded channel of
capacity 1, spawns one publisher task on the receiving half and the sink, and
returns the state with an empty registry. -/
def MqttSessionState.new (client_id : String) (zsession : Nat) (config : Config)
    (sink : Sink) : NewOutcome :=
  let tx : Channel := { cap := 1, buf := [], closed := false }
  { state := { client_id := client_id, zsession := zsession, config := config,
               subs := [], tx := tx },
    spawned := [{ client_id := client_id, sink := sink }] }

/-- Result of one `map_mqtt_subscription` call: the returned `ZResult<()>`,
the session state after the call, and the `declare_subscriber` call issued to
the zenoh session during the call, when one was issued (key expression and
allowed origin). -/
structure MapOutcome where
  result : Except ZErr Unit
  state : MqttSessionState
  declared : Option (String × Locality)

/-- `MqttSessionState::map_mqtt_subscription` (lines 54..95): chooses the
subscription origin from the allow/deny policy, and under the registry write
lock checks the topic, translates it, declares the subscriber, and inserts
the new entry; an already-present topic is a no-op success. -/
def map_mqtt_subscription (env : ZenohEnv) (s : MqttSessionState)
    (topic : String) : MapOutcome :=
  let sub_origin := if is_allowed topic s.config then Locality.Any
    else Locality.SessionLocal
  if containsKey s.subs topic = false then
    match env.mqtt_topic_to_ke topic s.config.scope with
    | .error e => { result := .error e, state := s, declared := none }
    | .ok ke =>
      match env.declare_subscriber ke sub_origin with
      | .error e =>
          { result := .error e, state := s, declared := some (ke, sub_origin) }
      | .ok _ =>
          { result := .ok (),
            state := { s with subs := insertKey s.subs topic ⟨ke, sub_origin⟩ },
            declared := some (ke, sub_origin) }
  else
    { result := .ok (), state := s, declared := none }

/-- Result of one `route_mqtt_to_zenoh` call: either the translation failed
and the error surfaced to the caller, or exactly one `put` was issued with
the recorded key, payload, encoding and destination, and its result returned
unchanged. -/
inductive RouteOutcome where
  | translationErr (e : ZErr)
  | published (ke : String) (payload : List Nat) (encoding : String)
      (destination : Locality) (result : Except ZErr Unit)

/-- `MqttSessionState::route_mqtt_to_zenoh` (lines 97..136): chooses the
publish destination from the allow/deny policy, translates the topic to a key
(joining the configured scope when present), infers the encoding from the
payload bytes and issues a single `put`, returning its result unchanged. -/
def route_mqtt_to_zenoh (env : ZenohEnv) (s : MqttSessionState)
    (topic : String) (payload : List Nat) : RouteOutcome :=
  let destination := if is_allowed topic s.config then Locality.Any
    else Locality.SessionLocal
  let keRes : Except ZErr String :=
    match s.config.scope with
    | some scope => (env.tryIntoKe topic).map (fun ke => env.keJoin scope ke)
    | none => env.tryIntoKe topic
  match keRes with
  | .error e => .translationErr e
  | .ok ke =>
    let encoding := env.guess_encoding payload
    .published ke payload encoding destination
      (env.put ke payload encoding destination)

/-- A zenoh sample delivered to a subscription callback. -/
structure Sample where
  key_expr : String
  payload : List Nat
deriving DecidableEq, Repr

/-- `Sender::send_blocking`: fails when the channel is closed (receiver
dropped); otherwise the message is enqueued (blocking until capacity is
available is modelled by the channel transition system below). -/
def send_blocking (c : Channel) (m : String × List Nat) :
    Except Unit Channel :=
  if c.closed then .error () else .ok { c with buf := c.buf ++ [m] }

/-- `route_zenoh_to_mqtt` (lines 139..162): translates the sample's key back
to a topic and enqueues `(topic, payload)` on the channel; a translation
failure or a send failure is returned as an error. -/
def route_zenoh_to_mqtt (env : ZenohEnv) (sample : Sample)
    (client_id : String) (config : Config) (tx : Channel) :
    Except ZErr Channel :=
  match env.ke_to_mqtt_topic_publish sample.key_expr config.scope with
  | .error e => .error e
  | .ok topic =>
    match send_blocking tx (topic, sample.payload) with
    | .error _ =>
        .error { msg := "MQTT client " ++ client_id ++
          ": error re-publishing on MQTT a Zenoh publication on " ++
          sample.key_expr }
    | .ok c => .ok c

/-- Result of running one subscription callback on an inbound sample: the
session state afterwards, and whether the event was dropped with a logged
warning. -/
structure CallbackOutcome where
  state : MqttSessionState
  warned : Bool

/-- The subscription callback closure (lines 77..81): runs
`route_zenoh_to_mqtt` on the sample; on error it logs a warning and drops the
event, leaving the session state untouched. -/
def subscription_callback (env : ZenohEnv) (s : MqttSessionState)
    (sample : Sample) : CallbackOutcome :=
  match route_zenoh_to_mqtt env sample s.client_id s.config s.tx with
  | .error _ => { state := s, warned := true }
  | .ok tx2 => { state := { s with tx := tx2 }, warned := false }

/-- Phase of the delivery task spawned by `spawn_mqtt_publisher`. -/
inductive TaskPhase where
  | running
  | closedSinkFailed
  | closedSinkClosed
  | closedChannel
deriving DecidableEq, Repr

/-- State of the delivery task: the sink it writes to, its phase, and how
many `publish_at_most_once` attempts it has issued. -/
structure TaskState where
  sink : Sink
  phase : TaskPhase
  attempts : Nat
deriving DecidableEq, Repr

/-- What `rx.recv()` produced on one loop iteration. -/
inductive RecvEvent where
  | msg (topic : String) (payload : List Nat)
  | closed
deriving DecidableEq, Repr

/-- Result of `Receiver::recv` on the channel state. -/
inductive RecvRes where
  | msg (m : String × List Nat)
  | closedRes
  | pending
deriving DecidableEq, Repr

/-- `Receiver::recv`: a buffered message if any, the closure error once the
channel is closed and drained, otherwise the receiver waits. -/
def Channel.recv (c : Channel) : RecvRes :=
  match c.buf with
  | m :: _ => .msg m
  | [] => if c.closed then .closedRes else .pending

/-- One iteration of the `spawn_mqtt_publisher` loop (lines 166..189).
`pubOk` is the sink's answer to the single `publish_at_most_once` call of the
iteration, when one is issued.  A terminated task does not step. -/
def deliveryStep (st : TaskState) (ev : RecvEvent) (pubOk : Bool) :
    TaskState :=
  match st.phase with
  | .running =>
    match ev with
    | .msg topic payload =>
      if st.sink.isOpenFlag then
        if pubOk then
          { st with
            sink := { st.sink with
              delivered := st.sink.delivered ++ [(topic, payload)] },
            attempts := st.attempts + 1 }
        else
          { st with
            sink := { st.sink with isOpenFlag := false },
            attempts := st.attempts + 1,
            phase := .closedSinkFailed }
      else
        { st with phase := .closedSinkClosed }
    | .closed => { st with phase := .closedChannel }
  | _ => st

/-- The delivery loop over a sequence of received events, each paired with
the sink's answer to the publish attempt of that iteration. -/
def deliveryRun (st : TaskState) (evs : List (RecvEvent × Bool)) : TaskState :=
  evs.foldl (fun s eb => deliveryStep s eb.1 eb.2) st

/-- Channel after an enqueue completed. -/
def Channel.enq (c : Channel) (m : String × List Nat) : Channel :=
  { c with buf := c.buf ++ [m] }

/-- Channel after the delivery task dequeued one message. -/
def Channel.deq (c : Channel) : Channel :=
  { c with buf := c.buf.tail }

/-- Channel after every sender or the receiver was dropped. -/
def Channel.closeCh (c : Channel) : Channel :=
  { c with closed := true }

/-- Transitions of the bounded channel: a sender completes an enqueue (only
possible with free capacity on an open channel), the delivery task dequeues,
or every sender or the receiver is dropped, closing the channel. -/
inductive ChanStep : Channel → Channel → Prop where
  | enqueue (c : Channel) (m : String × List Nat)
      (hlen : c.buf.length < c.cap) (hcl : c.closed = false) :
      ChanStep c (c.enq m)
  | dequeue (c : Channel) (h : c.buf ≠ []) :
      ChanStep c c.deq
  | close (c : Channel) : ChanStep c c.closeCh

/-- Channel states reachable from `c₀`. -/
def ChanReachable (c₀ c : Channel) : Prop :=
  Relation.ReflTransGen ChanStep c₀ c

/-! Concrete instances of the abstract collaborators, used to evaluate the
development on closed inputs. -/

/-- A translator and zenoh session on which every operation succeeds. -/
def envOk : ZenohEnv :=
  { mqtt_topic_to_ke := fun t _ => .ok t,
    ke_to_mqtt_topic_publish := fun k _ => .ok k,
    tryIntoKe := fun t => .ok t,
    keJoin := fun sc ke => sc ++ "/" ++ ke,
    guess_encoding := fun _ => "application/octet-stream",
    declare_subscriber := fun _ _ => .ok (),
    put := fun _ _ _ _ => .ok () }

/-- Like `envOk` but the topic-to-key translation fails. -/
def envTrFail : ZenohEnv :=
  { envOk with
    mqtt_topic_to_ke := fun _ _ => .error { msg := "bad topic" },
    ke_to_mqtt_topic_publish := fun _ _ => .error { msg := "bad topic" },
    tryIntoKe := fun _ => .error { msg := "bad topic" } }

/-- Configuration with no scope that allows every topic. -/
def cfgAllowAll : Config := { scope := none, allowRule := fun _ => true }

/-- Configuration with no scope that denies every topic. -/
def cfgDenyAll : Config := { scope := none, allowRule := fun _ => false }

/-- An open sink with no deliveries yet. -/
def sinkOpen : Sink := { isOpenFlag := true, delivered := [] }

/-- A fresh session under the allow-all configuration. -/
def s0 : MqttSessionState :=
  (MqttSessionState.new "client" 0 cfgAllowAll sinkOpen).state

/-- A fresh session under the deny-all configuration. -/
def s0deny : MqttSessionState :=
  (MqttSessionState.new "client" 0 cfgDenyAll sinkOpen).state

/-- A session whose outbound channel is already closed (receiver gone). -/
def sClosed : MqttSessionState :=
  { s0 with tx := s0.tx.closeCh }

/-- A running delivery task over an open sink. -/
def task0 : TaskState :=
  { sink := sinkOpen, phase := .running, attempts := 0 }

/-! Theorems. -/

/-- Whenever `map_mqtt_subscription` issues a `declare_subscriber` call, the
allowed origin it passes is the policy-chosen one. -/
theorem declared_origin (env : ZenohEnv) (s : MqttSessionState)
    (topic ke : String) (origin : Locality)
    (hsub : (map_mqtt_subscription env s topic).declared = some (ke, origin)) :
    origin = if is_allowed topic s.config then Locality.Any
      else Locality.SessionLocal := by
  by_cases hc : containsKey s.subs topic = false
  · rcases htr : env.mqtt_topic_to_ke topic s.config.scope with e | ke2
    · simp [map_mqtt_subscription, hc, htr] at hsub
    · rcases hd : env.declare_subscriber ke2
        (if is_allowed topic s.config then Locality.Any
          else Locality.SessionLocal) with e | u
      · simp [map_mqtt_subscription, hc, htr, hd] at hsub
        exact hsub.2.symm
      · simp [map_mqtt_subscription, hc, htr, hd] at hsub
        exact hsub.2.symm
  · simp [map_mqtt_subscription, hc] at hsub

/-- Whenever `route_mqtt_to_zenoh` issues a `put`, the destination it passes
is the policy-chosen one. -/
theorem published_destination (env : ZenohEnv) (s : MqttSessionState)
    (topic : String) (payload : List Nat) (ke : String) (pl : List Nat)
    (enc : String) (dest : Locality) (r : Except ZErr Unit)
    (hpub : route_mqtt_to_zenoh env s topic payload
      = .published ke pl enc dest r) :
    dest = if is_allowed topic s.config then Locality.Any
      else Locality.SessionLocal := by
  cases hsc : s.config.scope with
  | none =>
    rcases hke : env.tryIntoKe topic with e | k <;>
      simp [route_mqtt_to_zenoh, hsc, hke, Except.map] at hpub
    obtain ⟨-, -, -, h4, -⟩ := hpub
    exact h4.symm
  | some sc =>
    rcases hke : env.tryIntoKe topic with e | k <;>
      simp [route_mqtt_to_zenoh, hsc, hke, Except.map] at hpub
    obtain ⟨-, -, -, h4, -⟩ := hpub
    exact h4.symm

/-- C1: for every topic, the subscription origin chosen by
`map_mqtt_subscription` and the publish destination chosen by
`route_mqtt_to_zenoh` are both `SessionLocal` when the topic is not allowed
and both `Any` when it is allowed. -/
theorem policy_chooses_visibility (env : ZenohEnv) (s : MqttSessionState)
    (topic : String) (payload : List Nat) (ke ke2 : String) (pl : List Nat)
    (origin dest : Locality) (enc : String) (r : Except ZErr Unit)
    (hsub : (map_mqtt_subscription env s topic).declared = some (ke, origin))
    (hpub : route_mqtt_to_zenoh env s topic payload
      = .published ke2 pl enc dest r) :
    (is_allowed topic s.config = false →
      origin = Locality.SessionLocal ∧ dest = Locality.SessionLocal) ∧
    (is_allowed topic s.config = true →
      origin = Locality.Any ∧ dest = Locality.Any) := by
  have ho := declared_origin env s topic ke origin hsub
  have hd := published_destination env s topic payload ke2 pl enc dest r hpub
  constructor <;> intro h <;> rw [h] at ho hd <;> simp at ho hd <;>
    exact ⟨ho, hd⟩

/-- Witness for C1 on a concrete allowed topic. -/
theorem policy_chooses_visibility_witness :
    (is_allowed "home/temp" s0.config = false →
      Locality.Any = Locality.SessionLocal ∧
      Locality.Any = Locality.SessionLocal) ∧
    (is_allowed "home/temp" s0.config = true →
      Locality.Any = Locality.Any ∧ Locality.Any = Locality.Any) :=
  policy_chooses_visibility envOk s0 "home/temp" [1] "home/temp" "home/temp"
    [1] Locality.Any Locality.Any "application/octet-stream" (.ok ()) rfl rfl

/-- Filtering for a key after every entry at that key was removed yields
nothing. -/
theorem filter_eq_after_filter_ne (l : List (String × SubRecord))
    (t : String) :
    (l.filter (fun p => p.1 != t)).filter (fun p => p.1 == t) = [] := by
  induction l with
  | nil => rfl
  | cons a l ih =>
    by_cases h : a.1 = t <;> simp [List.filter_cons, h, ih]

/-- `insertKey` leaves exactly one entry at the inserted key. -/
theorem countKey_insertKey_self (l : List (String × SubRecord)) (t : String)
    (r : SubRecord) : countKey (insertKey l t r) t = 1 := by
  simp [countKey, insertKey, List.filter_cons, filter_eq_after_filter_ne l t]

/-- `insertKey` makes `containsKey` true at the inserted key. -/
theorem containsKey_insertKey_self (l : List (String × SubRecord))
    (t : String) (r : SubRecord) :
    containsKey (insertKey l t r) t = true := by
  simp [containsKey, insertKey]

/-- Entry counts never grow past 1 under `insertKey` when they were at most
1 before. -/
theorem countKey_insertKey_le_one (l : List (String × SubRecord))
    (t : String) (r : SubRecord) (t2 : String)
    (h : countKey l t2 ≤ 1) : countKey (insertKey l t r) t2 ≤ 1 := by
  by_cases ht : t2 = t
  · subst ht
    rw [countKey_insertKey_self]
  · have hsub : ((l.filter (fun p => p.1 != t)).filter
        (fun p => p.1 == t2)).Sublist (l.filter (fun p => p.1 == t2)) :=
      (List.filter_sublist l).filter (fun p => p.1 == t2)
    have hle := hsub.length_le
    have hne : ¬ ((t, r).1 == t2) = true := by
      simp
      exact fun hh => ht hh.symm
    calc countKey (insertKey l t r) t2
        = ((l.filter (fun p => p.1 != t)).filter
            (fun p => p.1 == t2)).length := by
          simp [countKey, insertKey, List.filter_cons, hne]
      _ ≤ (l.filter (fun p => p.1 == t2)).length := hle
      _ ≤ 1 := h

/-- A contained key has at least one entry. -/
theorem one_le_countKey_of_containsKey (l : List (String × SubRecord))
    (t : String) (h : containsKey l t = true) : 1 ≤ countKey l t := by
  induction l with
  | nil => simp [containsKey] at h
  | cons a l ih =>
    simp only [containsKey, List.any_cons, Bool.or_eq_true, beq_iff_eq] at h
    by_cases ha : a.1 = t
    · simp [countKey, List.filter_cons, ha]
    · rcases h with h | h
      · exact absurd h ha
      · have := ih (by simpa [containsKey] using h)
        simpa [countKey, List.filter_cons, ha] using this

/-- A subscribe request for a topic already present in the registry is a
no-op success: no translation, no `declare_subscriber` call, no state
change. -/
theorem map_noop_of_contains (env : ZenohEnv) (s1 : MqttSessionState)
    (t : String) (h : containsKey s1.subs t = true) :
    map_mqtt_subscription env s1 t =
      { result := .ok (), state := s1, declared := none } := by
  simp [map_mqtt_subscription, h]

/-- C2: `map_mqtt_subscription` is idempotent: after a successful call for a
topic, a second call for the same topic returns success without issuing a
`declare_subscriber` call and without changing the state, the registry holds
exactly one entry for the topic, and it keeps at most one entry per topic. -/
theorem map_mqtt_subscription_idempotent (env : ZenohEnv)
    (s : MqttSessionState) (t : String)
    (hinv : ∀ t2, countKey s.subs t2 ≤ 1)
    (h1 : (map_mqtt_subscription env s t).result = .ok ()) :
    countKey (map_mqtt_subscription env
      (map_mqtt_subscription env s t).state t).state.subs t = 1 ∧
    (map_mqtt_subscription env
      (map_mqtt_subscription env s t).state t).result = .ok () ∧
    (map_mqtt_subscription env
      (map_mqtt_subscription env s t).state t).declared = none ∧
    (map_mqtt_subscription env
      (map_mqtt_subscription env s t).state t).state
      = (map_mqtt_subscription env s t).state ∧
    (∀ t2, countKey (map_mqtt_subscription env
      (map_mqtt_subscription env s t).state t).state.subs t2 ≤ 1) := by
  by_cases hc : containsKey s.subs t = false
  · rcases htr : env.mqtt_topic_to_ke t s.config.scope with e | ke
    · exfalso
      simp [map_mqtt_subscription, hc, htr] at h1
    · rcases hd : env.declare_subscriber ke
        (if is_allowed t s.config then Locality.Any
          else Locality.SessionLocal) with e | u
      · exfalso
        simp [map_mqtt_subscription, hc, htr, hd] at h1
      · have h0 : map_mqtt_subscription env s t =
            { result := .ok (),
              state := { s with
                subs := insertKey s.subs t
                          ⟨ke, if is_allowed t s.config then Locality.Any
                               else Locality.SessionLocal⟩ },
              declared := some (ke,
                if is_allowed t s.config then Locality.Any
                  else Locality.SessionLocal) } := by
          simp [map_mqtt_subscription, hc, htr, hd]
        have hc2 : containsKey (map_mqtt_subscription env s t).state.subs t
            = true := by
          rw [h0]
          exact containsKey_insertKey_self ..
        have h2 := map_noop_of_contains env
          (map_mqtt_subscription env s t).state t hc2
        rw [h2]
        refine ⟨?_, rfl, rfl, rfl, ?_⟩
        · rw [h0]
          exact countKey_insertKey_self ..
        · intro t2
          rw [h0]
          exact countKey_insertKey_le_one s.subs t _ t2 (hinv t2)
  · have hc2 : containsKey s.subs t = true := by
      revert hc
      cases containsKey s.subs t <;> simp
    have h0 : map_mqtt_subscription env s t =
        { result := .ok (), state := s, declared := none } := by
      simp [map_mqtt_subscription, hc2]
    have hstate : (map_mqtt_subscription env s t).state = s := by rw [h0]
    rw [hstate, h0]
    exact ⟨Nat.le_antisymm (hinv t)
        (one_le_countKey_of_containsKey s.subs t hc2),
      rfl, rfl, rfl, hinv⟩

/-- Witness for C2 on a fresh session and a concrete topic. -/
theorem map_mqtt_subscription_idempotent_witness :
    countKey (map_mqtt_subscription envOk
      (map_mqtt_subscription envOk s0 "home/temp").state
      "home/temp").state.subs "home/temp" = 1 ∧
    (map_mqtt_subscription envOk
      (map_mqtt_subscription envOk s0 "home/temp").state
      "home/temp").result = .ok () ∧
    (map_mqtt_subscription envOk
      (map_mqtt_subscription envOk s0 "home/temp").state
      "home/temp").declared = none ∧
    (map_mqtt_subscription envOk
      (map_mqtt_subscription envOk s0 "home/temp").state
      "home/temp").state
      = (map_mqtt_subscription envOk s0 "home/temp").state ∧
    (∀ t2, countKey (map_mqtt_subscription envOk
      (map_mqtt_subscription envOk s0 "home/temp").state
      "home/temp").state.subs t2 ≤ 1) :=
  map_mqtt_subscription_idempotent envOk s0 "home/temp"
    (fun t2 => by simp [s0, MqttSessionState.new, countKey]) rfl

/-- C9: `MqttSessionState::new` always succeeds: for every client id, overlay
handle, configuration and sink it allocates a channel of capacity exactly 1,
spawns exactly one delivery task bound to the channel's receiving half and
the sink, and returns the state with an empty subscriptions registry. -/
theorem new_constructs_session (cid : String) (zs : Nat) (cfg : Config)
    (sink : Sink) :
    MqttSessionState.new cid zs cfg sink =
      { state := { client_id := cid, zsession := zs, config := cfg,
                   subs := [],
                   tx := { cap := 1, buf := [], closed := false } },
        spawned := [{ client_id := cid, sink := sink }] } := rfl

/-- C6: in `map_mqtt_subscription`, for a topic not already registered, a
topic-to-key translation failure returns the error to the caller and aborts
registration atomically: no subscriber is declared on the zenoh session and
the subscriptions registry is unchanged. -/
theorem translation_failure_is_atomic (env : ZenohEnv) (s : MqttSessionState)
    (topic : String) (e : ZErr)
    (habs : containsKey s.subs topic = false)
    (htr : env.mqtt_topic_to_ke topic s.config.scope = .error e) :
    map_mqtt_subscription env s topic =
      { result := .error e, state := s, declared := none } := by
  simp [map_mqtt_subscription, habs, htr]

/-- Witness for C6 at a concrete failing translator. -/
theorem translation_failure_is_atomic_witness :
    map_mqtt_subscription envTrFail s0 "bad+topic" =
      { result := .error { msg := "bad topic" }, state := s0,
        declared := none } :=
  translation_failure_is_atomic envTrFail s0 "bad+topic" { msg := "bad topic" }
    rfl rfl

/-- C8: `route_mqtt_to_zenoh` surfaces a translation failure to the caller
unchanged; otherwise it joins the configured scope onto the translated key,
infers the encoding from the payload bytes, issues exactly one `put` with the
policy-chosen destination and returns that result unchanged, with no retry. -/
theorem route_mqtt_to_zenoh_publishes_once (env : ZenohEnv)
    (s : MqttSessionState) (topic : String) (payload : List Nat) :
    (∀ e, env.tryIntoKe topic = .error e →
      route_mqtt_to_zenoh env s topic payload = .translationErr e) ∧
    (∀ ke, env.tryIntoKe topic = .ok ke →
      route_mqtt_to_zenoh env s topic payload =
        .published
          (match s.config.scope with
            | some sc => env.keJoin sc ke
            | none => ke)
          payload
          (env.guess_encoding payload)
          (if is_allowed topic s.config then Locality.Any
            else Locality.SessionLocal)
          (env.put
            (match s.config.scope with
              | some sc => env.keJoin sc ke
              | none => ke)
            payload
            (env.guess_encoding payload)
            (if is_allowed topic s.config then Locality.Any
              else Locality.SessionLocal))) := by
  constructor
  · intro e he
    cases hsc : s.config.scope <;>
      simp [route_mqtt_to_zenoh, hsc, he, Except.map]
  · intro ke hke
    cases hsc : s.config.scope <;>
      simp [route_mqtt_to_zenoh, hsc, hke, Except.map]

/-- Witness for C8 on a concrete topic and payload. -/
theorem route_mqtt_to_zenoh_publishes_once_witness :
    route_mqtt_to_zenoh envOk s0 "home/temp" [123] =
      .published "home/temp" [123] "application/octet-stream" Locality.Any
        (.ok ()) :=
  (route_mqtt_to_zenoh_publishes_once envOk s0 "home/temp" [123]).2
    "home/temp" rfl

/-- C10: once the outbound channel is closed (the delivery task terminated
and dropped the receiver), every inbound event handled by a subscription
callback fails to enqueue, is logged and dropped, and the session state,
including the subscriptions registry, is left untouched. -/
theorem closed_channel_callback_drops_event (env : ZenohEnv)
    (s : MqttSessionState) (sample : Sample)
    (hcl : s.tx.closed = true) :
    subscription_callback env s sample = { state := s, warned := true } ∧
    (subscription_callback env s sample).state.subs = s.subs := by
  rcases h : env.ke_to_mqtt_topic_publish sample.key_expr s.config.scope
    with e | topic <;>
    simp [subscription_callback, route_zenoh_to_mqtt, send_blocking, h, hcl]

/-- Witness for C10 on a session with a closed channel. -/
theorem closed_channel_callback_drops_event_witness :
    subscription_callback envOk sClosed { key_expr := "k", payload := [1] } =
      { state := sClosed, warned := true } ∧
    (subscription_callback envOk sClosed
      { key_expr := "k", payload := [1] }).state.subs = sClosed.subs :=
  closed_channel_callback_drops_event envOk sClosed
    { key_expr := "k", payload := [1] } rfl

/-- C7: a subscription callback on an inbound event whose key-to-topic
translation fails, or whose enqueue fails because the receiver is gone, logs
a warning and drops the event, leaving the session state, and in particular
the subscriptions registry, unchanged: a single failing event never tears a
subscription down. -/
theorem failing_event_keeps_subscription (env : ZenohEnv)
    (s : MqttSessionState) (sample : Sample)
    (herr : (∃ e, env.ke_to_mqtt_topic_publish sample.key_expr s.config.scope
        = .error e) ∨ s.tx.closed = true) :
    (subscription_callback env s sample).warned = true ∧
    (subscription_callback env s sample).state = s ∧
    (subscription_callback env s sample).state.subs = s.subs := by
  rcases herr with ⟨e, he⟩ | hcl
  · simp [subscription_callback, route_zenoh_to_mqtt, he]
  · rcases h : env.ke_to_mqtt_topic_publish sample.key_expr s.config.scope
      with e | topic <;>
      simp [subscription_callback, route_zenoh_to_mqtt, send_blocking, h, hcl]

/-- Witness for C7 on a concrete failing translation. -/
theorem failing_event_keeps_subscription_witness :
    (subscription_callback envTrFail s0
      { key_expr := "k", payload := [1] }).warned = true ∧
    (subscription_callback envTrFail s0
      { key_expr := "k", payload := [1] }).state = s0 ∧
    (subscription_callback envTrFail s0
      { key_expr := "k", payload := [1] }).state.subs = s0.subs :=
  failing_event_keeps_subscription envTrFail s0
    { key_expr := "k", payload := [1] }
    (Or.inl ⟨{ msg := "bad topic" }, rfl⟩)

/-- A delivery task that has left the running phase never steps again. -/
theorem deliveryStep_terminal (st : TaskState) (ev : RecvEvent)
    (pubOk : Bool) (h : st.phase ≠ .running) :
    deliveryStep st ev pubOk = st := by
  cases hph : st.phase
  case running => exact absurd hph h
  all_goals simp [deliveryStep, hph]

/-- A delivery task that has left the running phase ignores every further
event sequence. -/
theorem deliveryRun_terminal (st : TaskState)
    (evs : List (RecvEvent × Bool)) (h : st.phase ≠ .running) :
    deliveryRun st evs = st := by
  induction evs with
  | nil => rfl
  | cons e evs ih =>
    have hstep := deliveryStep_terminal st e.1 e.2 h
    simp only [deliveryRun, List.foldl_cons] at *
    rw [hstep]
    exact ih

/-- C5: the delivery loop follows the specified state machine: a message
with the sink open is attempted exactly once, success keeps the task
running, failure closes the sink and terminates; a message with the sink
closed terminates without an attempt; channel closure terminates; every
non-running phase is terminal, so the task never restarts. -/
theorem delivery_task_state_machine (st : TaskState) (topic : String)
    (payload : List Nat) (pubOk : Bool) (ev : RecvEvent) (pub2 : Bool)
    (hrun : st.phase = .running) :
    (st.sink.isOpenFlag = true →
      (deliveryStep st (.msg topic payload) pubOk).attempts
        = st.attempts + 1 ∧
      (pubOk = true →
        deliveryStep st (.msg topic payload) pubOk =
          { st with
            sink := { st.sink with
              delivered := st.sink.delivered ++ [(topic, payload)] },
            attempts := st.attempts + 1 }) ∧
      (pubOk = false →
        deliveryStep st (.msg topic payload) pubOk =
          { st with
            sink := { st.sink with isOpenFlag := false },
            attempts := st.attempts + 1,
            phase := .closedSinkFailed })) ∧
    (st.sink.isOpenFlag = false →
      deliveryStep st (.msg topic payload) pubOk
        = { st with phase := .closedSinkClosed }) ∧
    deliveryStep st .closed pubOk = { st with phase := .closedChannel } ∧
    (∀ st2 : TaskState, st2.phase ≠ .running →
      deliveryStep st2 ev pub2 = st2) := by
  refine ⟨?_, ?_, ?_, ?_⟩
  · intro hopen
    cases pubOk <;> simp [deliveryStep, hrun, hopen]
  · intro hcl
    simp [deliveryStep, hrun, hcl]
  · simp [deliveryStep, hrun]
  · intro st2 h2
    exact deliveryStep_terminal st2 ev pub2 h2

/-- Witness for C5 on a concrete running task. -/
theorem delivery_task_state_machine_witness :
    (task0.sink.isOpenFlag = true →
      (deliveryStep task0 (.msg "t" [1]) true).attempts
        = task0.attempts + 1 ∧
      (true = true →
        deliveryStep task0 (.msg "t" [1]) true =
          { task0 with
            sink := { task0.sink with
              delivered := task0.sink.delivered ++ [("t", [1])] },
            attempts := task0.attempts + 1 }) ∧
      (true = false →
        deliveryStep task0 (.msg "t" [1]) true =
          { task0 with
            sink := { task0.sink with isOpenFlag := false },
            attempts := task0.attempts + 1,
            phase := .closedSinkFailed })) ∧
    (task0.sink.isOpenFlag = false →
      deliveryStep task0 (.msg "t" [1]) true
        = { task0 with phase := .closedSinkClosed }) ∧
    deliveryStep task0 .closed true = { task0 with phase := .closedChannel } ∧
    (∀ st2 : TaskState, st2.phase ≠ .running →
      deliveryStep st2 .closed true = st2) :=
  delivery_task_state_machine task0 "t" [1] true .closed true rfl

/-- C4: once every sender is dropped (session destroyed) and the channel is
drained, the receiver observes closure, and the delivery task, on observing
it, terminates in the channel-closed phase and delivers no further message
to the sink, whatever events would follow. -/
theorem destroyed_session_stops_delivery (c : Channel) (st : TaskState)
    (evs : List (RecvEvent × Bool)) (pubOk : Bool)
    (hcl : c.closed = true) (hbuf : c.buf = [])
    (hrun : st.phase = .running) :
    Channel.recv c = .closedRes ∧
    (deliveryRun st ((.closed, pubOk) :: evs)).phase = .closedChannel ∧
    (deliveryRun st ((.closed, pubOk) :: evs)).sink.delivered
      = st.sink.delivered := by
  have h1 : deliveryStep st .closed pubOk
      = { st with phase := .closedChannel } := by
    simp [deliveryStep, hrun]
  have h2 : deliveryRun st ((.closed, pubOk) :: evs)
      = { st with phase := .closedChannel } := by
    have hu : deliveryRun st ((.closed, pubOk) :: evs)
        = deliveryRun (deliveryStep st .closed pubOk) evs := rfl
    rw [hu, h1]
    exact deliveryRun_terminal _ evs (by simp)
  refine ⟨?_, ?_, ?_⟩
  · simp [Channel.recv, hbuf, hcl]
  · rw [h2]
  · rw [h2]

/-- Witness for C4 on a closed drained channel and a running task. -/
theorem destroyed_session_stops_delivery_witness :
    Channel.recv (s0.tx.closeCh) = .closedRes ∧
    (deliveryRun task0 [(.closed, true)]).phase = .closedChannel ∧
    (deliveryRun task0 [(.closed, true)]).sink.delivered
      = task0.sink.delivered :=
  destroyed_session_stops_delivery s0.tx.closeCh task0 [] true rfl rfl rfl

/-- Channel transitions keep the capacity. -/
theorem chanStep_cap_eq (c c2 : Channel) (h : ChanStep c c2) :
    c2.cap = c.cap := by
  cases h <;> rfl

/-- Channel transitions keep the buffer within capacity. -/
theorem chanStep_buf_le (c c2 : Channel) (h : ChanStep c c2)
    (hle : c.buf.length ≤ c.cap) : c2.buf.length ≤ c2.cap := by
  cases h with
  | enqueue m hlen hcl =>
    simp only [Channel.enq, List.length_append, List.length_cons,
      List.length_nil]
    omega
  | dequeue hne =>
    simp only [Channel.deq, List.length_tail]
    omega
  | close => exact hle

/-- A channel transition either keeps the buffer from growing, or it is a
completed enqueue, which requires free capacity. -/
theorem chanStep_length_cases (c c2 : Channel) (h : ChanStep c c2) :
    c2.buf.length ≤ c.buf.length ∨
    (c2.buf.length = c.buf.length + 1 ∧ c.buf.length < c.cap) := by
  cases h with
  | enqueue m hlen hcl =>
    right
    exact ⟨by simp [Channel.enq], hlen⟩
  | dequeue hne =>
    left
    simp only [Channel.deq, List.length_tail]
    omega
  | close => exact Or.inl le_rfl

/-- Every reachable channel state keeps the initial capacity and a buffer
within it. -/
theorem chanReachable_inv (c0 c : Channel) (h : ChanReachable c0 c)
    (h0 : c0.buf.length ≤ c0.cap) :
    c.cap = c0.cap ∧ c.buf.length ≤ c.cap := by
  have h' : Relation.ReflTransGen ChanStep c0 c := h
  clear h
  induction h' with
  | refl => exact ⟨rfl, h0⟩
  | tail hr hs ih =>
    exact ⟨(chanStep_cap_eq _ _ hs).trans ih.1, chanStep_buf_le _ _ hs ih.2⟩

/-- C3: the outbound channel allocated by `MqttSessionState::new` has
capacity exactly 1; in every channel state reachable from it at most one
undelivered message is buffered; while that one message is undelivered no
further enqueue can complete (the sender blocks), and as soon as the message
is drained an enqueue is possible again. -/
theorem outbound_channel_bounded (cid : String) (zs : Nat) (cfg : Config)
    (sink : Sink) (c : Channel)
    (hr : ChanReachable
      (MqttSessionState.new cid zs cfg sink).state.tx c) :
    (MqttSessionState.new cid zs cfg sink).state.tx.cap = 1 ∧
    c.buf.length ≤ 1 ∧
    (c.buf.length = 1 →
      ∀ m : String × List Nat, ¬ ChanStep c (c.enq m)) ∧
    (c.buf.length = 1 → c.closed = false →
      ∀ m : String × List Nat, ChanStep c.deq (c.deq.enq m)) := by
  have hinv := chanReachable_inv _ c hr (by simp [MqttSessionState.new])
  have hcap : c.cap = 1 := hinv.1
  refine ⟨rfl, hcap ▸ hinv.2, ?_, ?_⟩
  · intro h1 m hstep
    rcases chanStep_length_cases _ _ hstep with hle | ⟨heq, hlt⟩
    · simp only [Channel.enq, List.length_append, List.length_cons,
        List.length_nil] at hle
      omega
    · rw [h1, hcap] at hlt
      omega
  · intro h1 hop m
    refine ChanStep.enqueue c.deq m ?_ ?_
    · simp only [Channel.deq, List.length_tail]
      rw [h1]
      show 1 - 1 < c.cap
      rw [hcap]
      omega
    · exact hop

/-- Witness for C3 on the channel of a fresh session after one enqueue. -/
theorem outbound_channel_bounded_witness :
    (MqttSessionState.new "client" 0 cfgAllowAll sinkOpen).state.tx.cap
      = 1 ∧
    ((MqttSessionState.new "client" 0 cfgAllowAll
      sinkOpen).state.tx.enq ("t", [1])).buf.length ≤ 1 ∧
    (((MqttSessionState.new "client" 0 cfgAllowAll
        sinkOpen).state.tx.enq ("t", [1])).buf.length = 1 →
      ∀ m : String × List Nat,
        ¬ ChanStep ((MqttSessionState.new "client" 0 cfgAllowAll
            sinkOpen).state.tx.enq ("t", [1]))
          (((MqttSessionState.new "client" 0 cfgAllowAll
            sinkOpen).state.tx.enq ("t", [1])).enq m)) ∧
    (((MqttSessionState.new "client" 0 cfgAllowAll
        sinkOpen).state.tx.enq ("t", [1])).buf.length = 1 →
      ((MqttSessionState.new "client" 0 cfgAllowAll
        sinkOpen).state.tx.enq ("t", [1])).closed = false →
      ∀ m : String × List Nat,
        ChanStep ((MqttSessionState.new "client" 0 cfgAllowAll
            sinkOpen).state.tx.enq ("t", [1])).deq
          (((MqttSessionState.new "client" 0 cfgAllowAll
            sinkOpen).state.tx.enq ("t", [1])).deq.enq m)) :=
  outbound_channel_bounded "client" 0 cfgAllowAll sinkOpen
    ((MqttSessionState.new "client" 0 cfgAllowAll
      sinkOpen).state.tx.enq ("t", [1]))
    (Relation.ReflTransGen.single
      (ChanStep.enqueue
        (MqttSessionState.new "client" 0 cfgAllowAll sinkOpen).state.tx
        ("t", [1]) (by simp [MqttSessionState.new]) rfl))

end ZenohMqtt
